import Mathlib

/-!
Verification of the secret-management module (`src/job/src/esm.ts`) of the
nftrout repository.  The TypeScript source is shallowly embedded: each
`async` function becomes a Lean function that consumes the responses the
external services (chain reader, attestation registry, lockbox registry)
would supply and produces, besides its return value, the list of external
effects it performed, in order.  External collaborators that are not part
of the repository's `src/` tree (the hex codec and `memoizeAsync` from
`./utils`, the deoxysii AEAD, the lockbox registry contract) are modelled
from the spec, as flagged on each definition.
-/

namespace Esm

/-! ### Constants of the deoxysii AEAD library (external collaborator) -/
/-- Modelled from the spec: the deoxysii library's key size ("Key: raw
symmetric key bytes, sized to the AEAD algorithm's key length"); the
external Deoxys-II-256 implementation uses 32-byte keys. -/
def KeySize : Nat := 32

/-- Modelled from the spec: the deoxysii library's nonce size ("nonce =
algorithm's nonce size"); the external implementation uses 15 bytes. -/
def NonceSize : Nat := 15

/-- Modelled from the spec: the deoxysii library's authentication-tag size
("ciphertext = plaintext length + fixed authentication-tag overhead"). -/
def TagSize : Nat := 16

/-- Source constant `export const LATEST_KEY_ID = 1` (src/job/src/esm.ts line 27). -/
def LATEST_KEY_ID : Nat := 1

/-! ### Hex codec (`encode` / `decode` from `./utils`) -/
/-- Hex digit character of a value below 16, using lowercase letters
(code 48 is `0`, code 97 is `a`). -/
def hexChar (n : Nat) : Char :=
  if n < 10 then Char.ofNat (48 + n) else Char.ofNat (87 + n)

/-- Numeric value of a hex digit character. -/
def hexVal (c : Char) : Nat :=
  if 97 ≤ c.toNat then c.toNat - 87 else c.toNat - 48

/-- Byte list to hex character list, two digits per byte. -/
def encodeBytes : List Nat → List Char
  | [] => []
  | b :: bs => hexChar (b / 16) :: hexChar (b % 16) :: encodeBytes bs

/-- Hex character list to byte list, consuming two digits per byte. -/
def decodeChars : List Char → List Nat
  | c1 :: c2 :: rest => (hexVal c1 * 16 + hexVal c2) :: decodeChars rest
  | _ => []

/-- Modelled from the spec: `encode` of `./utils` (not under src/), the
Codec component "encodes binary blobs to a transport-safe text
representation (hex)". -/
def encode (bs : List Nat) : String := ⟨encodeBytes bs⟩

/-- Modelled from the spec: `decode` of `./utils` (not under src/), the
inverse direction of the Codec component. -/
def decode (s : String) : List Nat := decodeChars s.data

/-- Strip a leading `0x` from a character list. -/
def strip0x (cs : List Char) : List Char :=
  if cs.take 2 = ['0', 'x'] then cs.drop 2 else cs

/-- Function `ethers.utils.arrayify`: hex string (optionally `0x`-prefixed) to bytes. -/
def arrayify (s : String) : List Nat := decodeChars (strip0x s.data)

/-! ### AEAD cipher (`new deoxysii.AEAD(key)`, external collaborator)

Modelled from the spec's AEAD contract (glossary: "produces ciphertext plus
an integrity tag, decryption fails closed on tampering"; data model:
"ciphertext = plaintext length + fixed authentication-tag overhead"): a
keystream cipher over bytes plus a keyed tag.  Only the contract matters to
the claims; the real Deoxys-II primitive is an external library. -/
/-- Keystream byte `i` derived from key and nonce. -/
def ksByte (key nonce : List Nat) (i : Nat) : Nat :=
  (key.foldl (· + ·) 0 + nonce.foldl (· + ·) 0 * 131 + i * 17 + 1) % 256

/-- XOR a byte list against the keystream starting at index `i`. -/
def xorStream (key nonce : List Nat) : Nat → List Nat → List Nat
  | _, [] => []
  | i, b :: bs => (b ^^^ ksByte key nonce i) :: xorStream key nonce (i + 1) bs

/-- Authentication tag over the encrypted body. -/
def aeadTag (key nonce body : List Nat) : List Nat :=
  List.replicate TagSize
    ((key.foldl (· + ·) 0 * 7 + nonce.foldl (· + ·) 0 * 3 + body.foldl (· + ·) 0) % 256)

/-- Modelled from the spec: `cipher.encrypt(nonce, data)` of the external
deoxysii AEAD — encrypted body followed by the authentication tag. -/
def aeadEncrypt (key nonce pt : List Nat) : List Nat :=
  let body := xorStream key nonce 0 pt
  body ++ aeadTag key nonce body

/-- Modelled from the spec: `cipher.decrypt(nonce, data)` of the external
deoxysii AEAD — verifies the tag and inverts the keystream, failing closed
("no partial/garbage plaintext is ever returned"). -/
def aeadDecrypt (key nonce ct : List Nat) : Option (List Nat) :=
  if ct.length < TagSize then none
  else
    let body := ct.take (ct.length - TagSize)
    let tag := ct.drop (ct.length - TagSize)
    if tag = aeadTag key nonce body then some (xorStream key nonce 0 body)
    else none

/-! ### Chain-facing data types and the effect trace -/
/-- A block as returned by `provider.getBlock`. -/
structure Block where
  number : Nat
  hash : String
  deriving Repr, DecidableEq

/-- Type `AttestationToken.RegistrationStruct`, as populated by
`fetchKeySapphire` (src/job/src/esm.ts lines 63-69). -/
structure Registration where
  baseBlockHash : String
  baseBlockNumber : Nat
  expiry : Nat
  registrant : String
  tokenExpiry : Nat
  deriving Repr, DecidableEq

/-- One emitted log entry of a transaction receipt, as consumed by
`sendAttestation` (`event.event` name and `event.args.tcbId`). -/
structure EventLog where
  name : String
  tcbId : String
  deriving Repr, DecidableEq

/-- The receipt `tx.wait()` resolves to: status, containing block number,
emitted events (spec section 6: `receipt{status, events[]}`). -/
structure TxReceipt where
  status : Nat
  blockNumber : Nat
  events : List EventLog
  deriving Repr, DecidableEq

/-- External effects, in order of occurrence: chain reads, transaction
submissions and poll sleeps. -/
inductive Effect where
  | headRead (n : Nat)
  | blockRead (n : Nat)
  | attestTx
  | getKeyCall (tcbId : String)
  | createKeyTx (tcbId : String)
  | sleep (ms : Nat)
  deriving Repr, DecidableEq

/-! ### `waitForConfirmation` (src/job/src/esm.ts lines 135-145)

The poll loop `while (currentBlock.number === receipt.blockNumber) { sleep
3000; re-read }` is embedded over the finite list of head-block numbers the
provider hands out on successive `getBlock('latest')` reads; `none` means
the supplied reads were exhausted while still polling (the unbounded wait
has not returned yet). -/
def waitForConfirmation (refBlock : Nat) : List Nat → Option (List Effect)
  | [] => none
  | h :: rest =>
    if h = refBlock then
      (waitForConfirmation refBlock rest).map
        (fun tr => Effect.headRead h :: Effect.sleep 3000 :: tr)
    else some [Effect.headRead h]

/-- A trace contains a head read whose block number differs from `ref`. -/
def observedDifferent (ref : Nat) (tr : List Effect) : Bool :=
  tr.any fun e =>
    match e with
    | Effect.headRead h => h ≠ ref
    | _ => false

/-- A trace contains a head read whose block number exceeds `ref`. -/
def observedGreater (ref : Nat) (tr : List Effect) : Bool :=
  tr.any fun e =>
    match e with
    | Effect.headRead h => ref < h
    | _ => false

/-! ### `sendAttestation` (src/job/src/esm.ts lines 115-133) -/
/-- The event scan of lines 124-128: start from `''` and overwrite with the
`tcbId` of every event named `"Attested"`. -/
def extractTcbId (events : List EventLog) : String :=
  events.foldl (fun acc e => if e.name == "Attested" then e.tcbId else acc) ""

/-- Function `sendAttestation(attok, quote, reg)`: submit the attest transaction,
fail on non-success status, scan for the `Attested` event, fail when none
was captured, then run the Confirmation Waiter before returning the TcbId.
The receipt and subsequent head reads are supplied by the environment. -/
def sendAttestation (_quote : List Nat) (_reg : Registration) (receipt : TxReceipt)
    (heads : List Nat) : Option (Except String String × List Effect) :=
  if receipt.status ≠ 1 then some (Except.error "attestation tx failed", [Effect.attestTx])
  else
    let tcbId := extractTcbId receipt.events
    if tcbId = "" then
      some (Except.error "could not retrieve attestation id", [Effect.attestTx])
    else
      match waitForConfirmation receipt.blockNumber heads with
      | none => none
      | some tr => some (Except.ok tcbId, Effect.attestTx :: tr)

/-! ### Lockbox registry (external contract) and `getOrCreateKey`
(src/job/src/esm.ts lines 147-162) -/
/-- The all-zero 32-byte value `getKey` returns for an absent key. -/
def zeroWord : String :=
  "0x0000000000000000000000000000000000000000000000000000000000000000"

/-- The test `/^(0x)?0+$/.test(key)` of line 153: optional `0x` prefix
followed by one or more `0` characters, spanning the whole string. -/
def isZeroKeyHex (s : String) : Bool :=
  let cs := strip0x s.data
  decide (cs ≠ []) && cs.all (fun c => c = '0')

/-- Modelled from the spec: the on-chain lockbox registry (external
collaborator, section 6): `getKey(tcbId) -> 32-byte value (zero = absent)`
and `createKey(tcbId, randomness)`, creation being idempotent ("first write
wins").  `derive` is the registry's internal key-derivation from the
submitted randomness. -/
structure LockboxState where
  keys : String → Option String
  derive : String → List Nat → String

/-- Modelled from the spec: the registry's read call; the zero word stands
for an absent key. -/
def LockboxState.getKey (st : LockboxState) (tcbId : String) : String :=
  (st.keys tcbId).getD zeroWord

/-- Modelled from the spec: the registry's create call — first write wins,
a second creation is a no-op. -/
def LockboxState.createKey (st : LockboxState) (tcbId : String) (rnd : List Nat) :
    LockboxState :=
  if (st.keys tcbId).isSome then st
  else
    { st with
      keys := fun t => if t = tcbId then some (st.derive tcbId rnd) else st.keys t }

/-- Function `getOrCreateKey(lockbox, gasWallet, tcbId)`: read the key; when the hex
value is not all-zero return its bytes at once; otherwise submit a
`createKey` transaction carrying the fresh randomness `rnd`, wait for the
receipt, run the Confirmation Waiter over `heads`, re-read and return.  The
receipt is supplied by the environment; note the source never inspects its
`status` field. -/
def getOrCreateKey (st : LockboxState) (rnd : List Nat) (receipt : TxReceipt)
    (heads : List Nat) (tcbId : String) :
    Option (List Nat × LockboxState × List Effect) :=
  let key := st.getKey tcbId
  if isZeroKeyHex key = false then some (arrayify key, st, [Effect.getKeyCall tcbId])
  else
    let st1 := st.createKey tcbId rnd
    match waitForConfirmation receipt.blockNumber heads with
    | none => none
    | some ctr =>
      some (arrayify (st1.getKey tcbId), st1,
        [Effect.getKeyCall tcbId, Effect.createKeyTx tcbId] ++ ctr
          ++ [Effect.getKeyCall tcbId])

/-! ### Chain reader, registration construction and the mock quote
(src/job/src/esm.ts lines 59-73 and 100-113) -/
/-- The chain reader (external collaborator, section 6): the current head
and the block at a given number. -/
structure ChainEnv where
  latest : Block
  blockAt : Nat → Block

/-- Big-endian 32-byte encoding of a number. -/
def natToBytes32 (n : Nat) : List Nat :=
  (List.range 32).map fun i => n / 256 ^ (31 - i) % 256

/-- Raw bytes of a string. -/
def strBytes (s : String) : List Nat := s.data.map Char.toNat

/-- Modelled from the spec: the external keccak library
(`createKeccakHash('keccak256')`), an opaque 32-byte digest. -/
def keccak256Model (bs : List Nat) : List Nat :=
  natToBytes32 (bs.foldl (fun a b => (a * 31 + b) % 2 ^ 256) 0)

/-- Modelled from the spec: the external ethers ABI coder applied to a
Registration value (`coder.encode([regTypeDef], [registration])`). -/
def abiEncodeReg (r : Registration) : List Nat :=
  natToBytes32 r.baseBlockNumber ++ strBytes r.baseBlockHash
    ++ natToBytes32 r.expiry ++ strBytes r.registrant ++ natToBytes32 r.tokenExpiry

/-- The fixed measurement identifier of line 102. -/
def measurementHash : String :=
  "0xc275e487107af5257147ce76e1515788118429e0caa17c04d508038da59d5154"

/-- Function `mockQuote(registration)`: encode(measurement id, keccak(encoded
registration)) (src/job/src/esm.ts lines 100-113). -/
def mockQuote (reg : Registration) : List Nat :=
  arrayify measurementHash ++ keccak256Model (abiEncodeReg reg)

/-- The Registration built by `fetchKeySapphire` (lines 60-69): one hour
expiry, base block = the block immediately preceding the chain head, the
local wallet's address as registrant. -/
def mkRegistration (now : Nat) (chain : ChainEnv) (localWalletAddr : String) :
    Registration :=
  let oneHourFromNow := now + 60 * 60
  let currentBlock := chain.latest
  let prevBlock := chain.blockAt (currentBlock.number - 1)
  { baseBlockHash := prevBlock.hash
    baseBlockNumber := prevBlock.number
    expiry := oneHourFromNow
    registrant := localWalletAddr
    tokenExpiry := oneHourFromNow }

/-! ### The environment and `fetchKeySapphire` (src/job/src/esm.ts
lines 59-73) -/
/-- All responses the external services supply during one key derivation:
the clock, the chain reader, the two receipts, the head reads consumed by
the two confirmation waits, the lockbox and the fresh randomness. -/
structure Env where
  now : Nat
  chain : ChainEnv
  localWalletAddr : String
  attestReceipt : TxReceipt
  attestHeads : List Nat
  lockbox : LockboxState
  createRnd : List Nat
  createReceipt : TxReceipt
  createHeads : List Nat

/-- The two chain reads of lines 61-62 (`getBlock('latest')` and
`getBlock(currentBlock.number - 1)`). -/
def preTrace (env : Env) : List Effect :=
  [Effect.headRead env.chain.latest.number,
   Effect.blockRead (env.chain.latest.number - 1)]

/-- Function `fetchKeySapphire`: build the Registration from the head and its
predecessor, compute the mock quote, run `sendAttestation`, then resolve
the key through `getOrCreateKey`. -/
def fetchKeySapphire (env : Env) : Option (Except String (List Nat) × List Effect) :=
  match sendAttestation
      (mockQuote (mkRegistration env.now env.chain env.localWalletAddr))
      (mkRegistration env.now env.chain env.localWalletAddr)
      env.attestReceipt env.attestHeads with
  | none => none
  | some (Except.error e, tr) => some (Except.error e, preTrace env ++ tr)
  | some (Except.ok tcbId, tr) =>
    match getOrCreateKey env.lockbox env.createRnd env.createReceipt
        env.createHeads tcbId with
    | none => none
    | some (k, _st, tr2) => some (Except.ok k, preTrace env ++ tr ++ tr2)

/-! ### Cipher Service: `getCipher`, `encrypt`, `decrypt`
(src/job/src/esm.ts lines 21-25 and 75-97) -/
/-- The encrypted envelope `Box` of lines 21-25. -/
structure Box where
  keyId : Nat
  nonce : String
  data : String
  deriving Repr, DecidableEq

/-- Cipher object `new deoxysii.AEAD(key)`: determined by its key bytes. -/
structure AEADCipher where
  key : List Nat
  deriving Repr, DecidableEq

/-- The fixed all-42 test key of line 77 (`Buffer.alloc(deoxysii.KeySize, 42)`). -/
def testKey : List Nat := List.replicate KeySize 42

/-- The body of the memoized `getCipher` (lines 75-81): key id 0 selects
the test key with no external interaction, key id 1 runs the full
`fetchKeySapphire` derivation, anything else is a hard error. -/
def getCipherRaw (env : Env) (keyId : Nat) :
    Option (Except String AEADCipher × List Effect) :=
  if keyId = 0 then some (Except.ok { key := testKey }, [])
  else if keyId = 1 then
    (fetchKeySapphire env).map fun p => (p.1.map fun k => { key := k }, p.2)
  else some (Except.error ("unknown key: " ++ toString keyId), [])

/-- The memoization cache keyed by `KeyId`. -/
def Cache : Type := Nat → Option (Except String AEADCipher)

/-- The empty cache of a fresh process. -/
def emptyCache : Cache := fun _ => none

/-- Cache update. -/
def updateCache (c : Cache) (k : Nat) (r : Except String AEADCipher) : Cache :=
  fun k' => if k' = k then some r else c k'

/-- Modelled from the spec: `memoizeAsync` of `./utils` (not under src/),
the Memoization Cache component (section 4.4) applied to `getCipher`: a
hit returns the stored settled computation with no external effect; a miss
runs the underlying derivation once and stores its outcome.  The final
boolean records whether the underlying derivation was invoked. -/
def getCipherMemo (c : Cache) (env : Env) (keyId : Nat) :
    Option (Except String AEADCipher × Cache × List Effect × Bool) :=
  match c keyId with
  | some r => some (r, c, [], false)
  | none =>
    (getCipherRaw env keyId).map fun p => (p.1, updateCache c keyId p.1, p.2, true)

/-- Method `ESM.encrypt(data)` (lines 83-92): resolve the cipher for
`LATEST_KEY_ID`, then assemble the Box from the hex-encoded fresh nonce
and hex-encoded ciphertext. -/
def encrypt (c : Cache) (env : Env) (nonce : List Nat) (data : List Nat) :
    Option (Except String Box × Cache × List Effect) :=
  match getCipherMemo c env LATEST_KEY_ID with
  | none => none
  | some (Except.error e, c', tr, _) => some (Except.error e, c', tr)
  | some (Except.ok cipher, c', tr, _) =>
    some (Except.ok
      { keyId := LATEST_KEY_ID
        nonce := encode nonce
        data := encode (aeadEncrypt cipher.key nonce data) }, c', tr)

/-- AEAD decryption of a Box under a resolved key, authentication failure
propagating as an error. -/
def decryptWithKey (key : List Nat) (box : Box) : Except String (List Nat) :=
  match aeadDecrypt key (decode box.nonce) (decode box.data) with
  | some pt => Except.ok pt
  | none => Except.error "decryption failed"

/-- Method `ESM.decrypt` (lines 94-97): resolve the cipher
for the Box's own key id, decode the fields and AEAD-decrypt. -/
def decrypt (c : Cache) (env : Env) (box : Box) :
    Option (Except String (List Nat) × Cache × List Effect) :=
  match getCipherMemo c env box.keyId with
  | none => none
  | some (Except.error e, c', tr, _) => some (Except.error e, c', tr)
  | some (Except.ok cipher, c', tr, _) =>
    some (decryptWithKey cipher.key box, c', tr)

/-- Concrete chain reader used by the Registration witness. -/
def chainW : ChainEnv :=
  { latest := { number := 5, hash := "h5" }
    blockAt := fun n => { number := n, hash := "b" } }

/-! ### Cache reachability and the unknown-key / test-key claims -/
/-- The cache states reachable in a run: an entry for key id 0 can only be
the test cipher, an entry for any id other than 0 and 1 can only be the
unknown-key error (both are what `getCipherRaw` deterministically returns
for those ids). -/
def CacheOK (c : Cache) : Prop :=
  (∀ r, c 0 = some r → r = Except.ok { key := testKey }) ∧
  (∀ k, k ≠ 0 → k ≠ 1 → ∀ r, c k = some r
      → r = Except.error ("unknown key: " ++ toString k))

/-- Concrete environment for the cipher-service witnesses. -/
def envTriv : Env :=
  { now := 0
    chain := { latest := { number := 0, hash := "" }, blockAt := fun _ => { number := 0, hash := "" } }
    localWalletAddr := ""
    attestReceipt := { status := 1, blockNumber := 0, events := [] }
    attestHeads := []
    lockbox := { keys := fun _ => none, derive := fun _ _ => "" }
    createRnd := []
    createReceipt := { status := 1, blockNumber := 0, events := [] }
    createHeads := [] }

/-- Run of `n` successive calls of the memoized `getCipher` for key id `k`,
threading the cache, collecting every result and the concatenated trace. -/
def runGetCipherN (env : Env) (k : Nat) :
    Cache → Nat → Option (List (Except String AEADCipher) × Cache × List Effect)
  | c, 0 => some ([], c, [])
  | c, n + 1 =>
    match getCipherMemo c env k with
    | none => none
    | some (r, c', tr, _) =>
      (runGetCipherN env k c' n).map fun q => (r :: q.1, q.2.1, tr ++ q.2.2)

/-- Concrete environment whose derivation succeeds: attestation receipt
carries one `Attested` event, both confirmation waits finish at once, and
the lockbox already holds the key `0x2a`. -/
def envC5 : Env :=
  { now := 1000
    chain := { latest := { number := 5, hash := "h5" }
               blockAt := fun n => { number := n, hash := "hb" } }
    localWalletAddr := "w"
    attestReceipt := { status := 1, blockNumber := 7,
                       events := [{ name := "Attested", tcbId := "t1" }] }
    attestHeads := [8]
    lockbox := { keys := fun _ => some "0x2a", derive := fun _ _ => "" }
    createRnd := []
    createReceipt := { status := 1, blockNumber := 0, events := [] }
    createHeads := [] }

/-- A cache already holding a resolved production cipher, as left behind by
a previous successful call. -/
def cacheC1 : Cache :=
  fun k => if k = 1 then some (Except.ok { key := [7] }) else none

theorem hexVal_hexChar_fin : ∀ n : Fin 16, hexVal (hexChar n.val) = n.val := by decide

theorem hexVal_hexChar {n : Nat} (h : n < 16) : hexVal (hexChar n) = n :=
  hexVal_hexChar_fin ⟨n, h⟩

/-- Decoding inverts encoding on byte lists. -/
theorem decodeChars_encodeBytes (bs : List Nat) (h : ∀ b ∈ bs, b < 256) :
    decodeChars (encodeBytes bs) = bs := by
  induction bs with
  | nil => rfl
  | cons b bs ih =>
    have hb : b < 256 := h b (List.mem_cons_self b bs)
    have hbs : ∀ x ∈ bs, x < 256 := fun x hx => h x (List.mem_cons_of_mem b hx)
    have hdiv : b / 16 < 16 := Nat.div_lt_of_lt_mul (by omega)
    have hmod : b % 16 < 16 := Nat.mod_lt _ (by omega)
    simp only [encodeBytes, decodeChars, hexVal_hexChar hdiv, hexVal_hexChar hmod,
      ih hbs, List.cons.injEq, and_true]
    omega

/-- The Codec round trip: for byte strings, `decode (encode bs) = bs`. -/
theorem decode_encode (bs : List Nat) (h : ∀ b ∈ bs, b < 256) :
    decode (encode bs) = bs :=
  decodeChars_encodeBytes bs h

theorem length_xorStream (key nonce : List Nat) (i : Nat) (bs : List Nat) :
    (xorStream key nonce i bs).length = bs.length := by
  induction bs generalizing i with
  | nil => rfl
  | cons b bs ih => simp [xorStream, ih]

theorem xorStream_xorStream (key nonce : List Nat) (i : Nat) (bs : List Nat) :
    xorStream key nonce i (xorStream key nonce i bs) = bs := by
  induction bs generalizing i with
  | nil => rfl
  | cons b bs ih =>
    simp only [xorStream, List.cons.injEq]
    exact ⟨Nat.xor_cancel_right _ _, ih (i + 1)⟩

theorem ksByte_lt (key nonce : List Nat) (i : Nat) : ksByte key nonce i < 256 :=
  Nat.mod_lt _ (by omega)

theorem xorStream_bytes_lt (key nonce : List Nat) (i : Nat) (bs : List Nat)
    (h : ∀ b ∈ bs, b < 256) : ∀ b ∈ xorStream key nonce i bs, b < 256 := by
  induction bs generalizing i with
  | nil => simp [xorStream]
  | cons b bs ih =>
    intro x hx
    simp only [xorStream, List.mem_cons] at hx
    rcases hx with hx | hx
    · subst hx
      have hb : b < 256 := h b (List.mem_cons_self b bs)
      have hk : ksByte key nonce i < 256 := ksByte_lt key nonce i
      have : b ^^^ ksByte key nonce i = Nat.bitwise bne b (ksByte key nonce i) := rfl
      rw [this]
      have h8 : (256 : Nat) = 2 ^ 8 := by norm_num
      rw [h8] at hb hk ⊢
      exact Nat.bitwise_lt hb hk
    · exact ih (i + 1) (fun x hx => h x (List.mem_cons_of_mem b hx)) x hx

theorem aeadEncrypt_bytes_lt (key nonce pt : List Nat) (h : ∀ b ∈ pt, b < 256) :
    ∀ b ∈ aeadEncrypt key nonce pt, b < 256 := by
  intro x hx
  simp only [aeadEncrypt, List.mem_append] at hx
  rcases hx with hx | hx
  · exact xorStream_bytes_lt key nonce 0 pt h x hx
  · simp only [aeadTag, List.mem_replicate] at hx
    rw [hx.2]
    exact Nat.mod_lt _ (by omega)

/-- Decrypting an honest encryption recovers the plaintext. -/
theorem aeadDecrypt_aeadEncrypt (key nonce pt : List Nat) :
    aeadDecrypt key nonce (aeadEncrypt key nonce pt) = some pt := by
  have hlen : (xorStream key nonce 0 pt).length = pt.length :=
    length_xorStream key nonce 0 pt
  simp only [aeadDecrypt, aeadEncrypt, List.length_append, aeadTag,
    List.length_replicate]
  have hnotlt : ¬ (xorStream key nonce 0 pt).length + TagSize < TagSize := by omega
  rw [if_neg hnotlt]
  have htake :
      (xorStream key nonce 0 pt ++ aeadTag key nonce (xorStream key nonce 0 pt)).take
        ((xorStream key nonce 0 pt).length + TagSize - TagSize)
        = xorStream key nonce 0 pt := by
    have : (xorStream key nonce 0 pt).length + TagSize - TagSize
        = (xorStream key nonce 0 pt).length := by omega
    rw [this]
    exact List.take_left _ _
  have hdrop :
      (xorStream key nonce 0 pt ++ aeadTag key nonce (xorStream key nonce 0 pt)).drop
        ((xorStream key nonce 0 pt).length + TagSize - TagSize)
        = aeadTag key nonce (xorStream key nonce 0 pt) := by
    have : (xorStream key nonce 0 pt).length + TagSize - TagSize
        = (xorStream key nonce 0 pt).length := by omega
    rw [this]
    exact List.drop_left _ _
  simp only [aeadTag, List.length_replicate] at htake hdrop
  rw [htake, hdrop, if_pos rfl, xorStream_xorStream]

theorem observedDifferent_cons (ref : Nat) (e : Effect) (tr : List Effect)
    (h : observedDifferent ref tr = true) :
    observedDifferent ref (e :: tr) = true := by
  unfold observedDifferent at h ⊢
  rw [List.any_cons, h, Bool.or_true]

theorem waitForConfirmation_observedDifferent (ref : Nat) (heads : List Nat)
    (tr : List Effect) (h : waitForConfirmation ref heads = some tr) :
    observedDifferent ref tr = true := by
  induction heads generalizing tr with
  | nil => simp [waitForConfirmation] at h
  | cons hd rest ih =>
    simp only [waitForConfirmation] at h
    by_cases hhd : hd = ref
    · rw [if_pos hhd] at h
      cases hrec : waitForConfirmation ref rest with
      | none => rw [hrec] at h; simp at h
      | some tr' =>
        rw [hrec] at h
        simp only [Option.map_some', Option.some.injEq] at h
        subst h
        exact observedDifferent_cons _ _ _ (observedDifferent_cons _ _ _ (ih tr' hrec))
    · rw [if_neg hhd] at h
      simp only [Option.some.injEq] at h
      subst h
      simp [observedDifferent, hhd]

/-- No transaction submission occurs inside the confirmation poll. -/
theorem waitForConfirmation_count_attest (ref : Nat) (heads : List Nat)
    (tr : List Effect) (h : waitForConfirmation ref heads = some tr) :
    tr.count Effect.attestTx = 0 := by
  induction heads generalizing tr with
  | nil => simp [waitForConfirmation] at h
  | cons hd rest ih =>
    simp only [waitForConfirmation] at h
    by_cases hhd : hd = ref
    · rw [if_pos hhd] at h
      cases hrec : waitForConfirmation ref rest with
      | none => rw [hrec] at h; simp at h
      | some tr' =>
        rw [hrec] at h
        simp only [Option.map_some', Option.some.injEq] at h
        subst h
        simp [List.count_cons, ih tr' hrec]
    · rw [if_neg hhd] at h
      simp only [Option.some.injEq] at h
      subst h
      simp [List.count_cons]

theorem extractTcbId_append (xs : List EventLog) (e : EventLog) :
    extractTcbId (xs ++ [e])
      = if e.name == "Attested" then e.tcbId else extractTcbId xs := by
  simp [extractTcbId, List.foldl_append]

/-- When no event is named `Attested`, the scan yields the empty string. -/
theorem extractTcbId_no_attested (events : List EventLog)
    (h : ∀ e ∈ events, e.name ≠ "Attested") : extractTcbId events = "" := by
  induction events using List.reverseRecOn with
  | nil => rfl
  | append_singleton xs e ih =>
    rw [extractTcbId_append]
    have he : e.name ≠ "Attested" := h e (by simp)
    rw [if_neg (by simpa using he)]
    exact ih fun x hx => h x (by simp [hx])

/-- The scan returns the `tcbId` of the last `Attested` event in log order. -/
theorem extractTcbId_eq_last (events : List EventLog) (e : EventLog)
    (h : (events.filter fun ev => ev.name == "Attested").getLast? = some e) :
    extractTcbId events = e.tcbId := by
  induction events using List.reverseRecOn with
  | nil => simp at h
  | append_singleton xs x ih =>
    rw [extractTcbId_append]
    rw [List.filter_append] at h
    cases hx : x.name == "Attested" with
    | true =>
      have hfil : List.filter (fun ev => ev.name == "Attested") [x] = [x] := by
        simp [List.filter_singleton, hx]
      rw [hfil, List.getLast?_concat] at h
      simp only [Option.some.injEq] at h
      simp [hx, ← h]
    | false =>
      have hfil : List.filter (fun ev => ev.name == "Attested") [x] = [] := by
        simp [List.filter_singleton, hx]
      rw [hfil, List.append_nil] at h
      simp [hx, ih h]

theorem isZeroKeyHex_zeroWord : isZeroKeyHex zeroWord = true := by decide

/-- No attest transaction occurs inside the lockbox resolver. -/
theorem getOrCreateKey_count_attest (st : LockboxState) (rnd : List Nat)
    (receipt : TxReceipt) (heads : List Nat) (tcbId : String)
    (k : List Nat) (st' : LockboxState) (tr : List Effect)
    (h : getOrCreateKey st rnd receipt heads tcbId = some (k, st', tr)) :
    tr.count Effect.attestTx = 0 := by
  unfold getOrCreateKey at h
  by_cases hz : isZeroKeyHex (st.getKey tcbId) = false
  · rw [if_pos hz] at h
    simp only [Option.some.injEq, Prod.mk.injEq] at h
    rw [← h.2.2]
    simp
  · rw [if_neg hz] at h
    cases hc : waitForConfirmation receipt.blockNumber heads with
    | none => rw [hc] at h; simp at h
    | some ctr =>
      rw [hc] at h
      simp only [Option.some.injEq, Prod.mk.injEq] at h
      rw [← h.2.2]
      have := waitForConfirmation_count_attest receipt.blockNumber heads ctr hc
      simp [List.count_append, List.count_cons, this]

/-! ### Claim C3: confirmation gating -/
/-- Claim C3 as stated is false: the waiter returns as soon as a head with
a *different* number is observed, even one *smaller* than the reference.
With reference block 5 and a first head read of 4, it returns after one
read although no block strictly greater than 5 was ever observed. -/
theorem waitForConfirmation_not_strictly_greater :
    waitForConfirmation 5 [4] = some [Effect.headRead 4] ∧
    observedGreater 5 [Effect.headRead 4] = false := by
  constructor
  · rfl
  · rfl

/-- Claim C3 (amended): the Confirmation Waiter returns only once a
chain-head block with number *different from* the reference block number
has been observed; in a run where the head equals the reference on the
first read and differs on the second, it performs exactly 2 head reads
with exactly one intervening fixed 3-second sleep. -/
theorem waitForConfirmation_gating :
    (∀ ref h2 : Nat, h2 ≠ ref →
        waitForConfirmation ref [ref, h2]
          = some [Effect.headRead ref, Effect.sleep 3000, Effect.headRead h2]) ∧
    (∀ (ref : Nat) (heads : List Nat) (tr : List Effect),
        waitForConfirmation ref heads = some tr →
        observedDifferent ref tr = true) := by
  constructor
  · intro ref h2 hne
    simp [waitForConfirmation, hne]
  · exact waitForConfirmation_observedDifferent

theorem waitForConfirmation_gating_witness :
    waitForConfirmation 5 [5, 6]
      = some [Effect.headRead 5, Effect.sleep 3000, Effect.headRead 6] ∧
    observedDifferent 5 [Effect.headRead 5, Effect.sleep 3000, Effect.headRead 6]
      = true :=
  ⟨waitForConfirmation_gating.1 5 6 (by decide),
   waitForConfirmation_gating.2 5 [5, 6] _
     (waitForConfirmation_gating.1 5 6 (by decide))⟩

/-! ### Claim C4: sendAttestation error handling and confirmation ordering -/
/-- A successful `sendAttestation` run decomposes as the attest submission
followed by a completed confirmation wait. -/
theorem sendAttestation_ok_shape (q : List Nat) (reg : Registration)
    (r : TxReceipt) (heads : List Nat) (tcb : String) (tr : List Effect)
    (h : sendAttestation q reg r heads = some (Except.ok tcb, tr)) :
    ∃ ctr, waitForConfirmation r.blockNumber heads = some ctr
      ∧ tr = Effect.attestTx :: ctr := by
  unfold sendAttestation at h
  by_cases hst : r.status ≠ 1
  · rw [if_pos hst] at h; simp at h
  · rw [if_neg hst] at h
    by_cases hid : extractTcbId r.events = ""
    · rw [if_pos hid] at h; simp at h
    · rw [if_neg hid] at h
      cases hc : waitForConfirmation r.blockNumber heads with
      | none => rw [hc] at h; simp at h
      | some ctr =>
        rw [hc] at h
        simp only [Option.some.injEq, Prod.mk.injEq] at h
        exact ⟨ctr, rfl, h.2.symm⟩

/-- Claim C4: `sendAttestation` fails with "attestation tx failed" on a
non-success receipt status; with success status but no `Attested` event it
fails with "could not retrieve attestation id"; and whenever it returns a
TcbId, the Confirmation Waiter has completed first, its head reads lying
between the attest submission and the return. -/
theorem sendAttestation_spec :
    (∀ (q : List Nat) (reg : Registration) (r : TxReceipt) (heads : List Nat),
        r.status ≠ 1 →
        sendAttestation q reg r heads
          = some (Except.error "attestation tx failed", [Effect.attestTx])) ∧
    (∀ (q : List Nat) (reg : Registration) (r : TxReceipt) (heads : List Nat),
        r.status = 1 → (∀ e ∈ r.events, e.name ≠ "Attested") →
        sendAttestation q reg r heads
          = some (Except.error "could not retrieve attestation id", [Effect.attestTx])) ∧
    (∀ (q : List Nat) (reg : Registration) (r : TxReceipt) (heads : List Nat)
        (tcb : String) (tr : List Effect),
        sendAttestation q reg r heads = some (Except.ok tcb, tr) →
        (waitForConfirmation r.blockNumber heads).isSome = true ∧
        tr = Effect.attestTx :: (waitForConfirmation r.blockNumber heads).getD []) := by
  refine ⟨?_, ?_, ?_⟩
  · intro q reg r heads hst
    unfold sendAttestation
    rw [if_pos hst]
  · intro q reg r heads hst hnoev
    unfold sendAttestation
    rw [if_neg (by simp [hst]), if_pos (extractTcbId_no_attested r.events hnoev)]
  · intro q reg r heads tcb tr h
    obtain ⟨ctr, hc, htr⟩ := sendAttestation_ok_shape q reg r heads tcb tr h
    rw [hc, htr]
    exact ⟨rfl, rfl⟩

theorem sendAttestation_spec_witness :
    sendAttestation []
        { baseBlockHash := "h", baseBlockNumber := 4, expiry := 9,
          registrant := "a", tokenExpiry := 9 }
        { status := 0, blockNumber := 5, events := [] } [6]
      = some (Except.error "attestation tx failed", [Effect.attestTx]) ∧
    sendAttestation []
        { baseBlockHash := "h", baseBlockNumber := 4, expiry := 9,
          registrant := "a", tokenExpiry := 9 }
        { status := 1, blockNumber := 5, events := [{ name := "Other", tcbId := "x" }] } [6]
      = some (Except.error "could not retrieve attestation id", [Effect.attestTx]) ∧
    ((waitForConfirmation 5 [6]).isSome = true ∧
      [Effect.attestTx, Effect.headRead 6]
        = Effect.attestTx :: (waitForConfirmation 5 [6]).getD []) :=
  ⟨sendAttestation_spec.1 [] _ _ [6] (by decide),
   sendAttestation_spec.2.1 [] _ _ [6] rfl (by decide),
   sendAttestation_spec.2.2 []
     { baseBlockHash := "h", baseBlockNumber := 4, expiry := 9,
       registrant := "a", tokenExpiry := 9 }
     { status := 1, blockNumber := 5, events := [{ name := "Attested", tcbId := "t" }] }
     [6] "t" [Effect.attestTx, Effect.headRead 6] rfl⟩

/-! ### Claim C10: the last Attested event wins -/
/-- Claim C10: with a success receipt holding one or more `Attested`
events, `sendAttestation` returns the TcbId of the *last* such event in
log order — each later `Attested` event overwrites the earlier extraction. -/
theorem sendAttestation_last_attested (q : List Nat) (reg : Registration)
    (r : TxReceipt) (heads : List Nat) (ctr : List Effect) (e : EventLog)
    (hst : r.status = 1)
    (hlast : (r.events.filter fun ev => ev.name == "Attested").getLast? = some e)
    (hne : e.tcbId ≠ "")
    (hconf : waitForConfirmation r.blockNumber heads = some ctr) :
    sendAttestation q reg r heads
      = some (Except.ok e.tcbId, Effect.attestTx :: ctr) := by
  have hex := extractTcbId_eq_last r.events e hlast
  unfold sendAttestation
  rw [if_neg (by simp [hst]), hex, if_neg hne, hconf]

theorem sendAttestation_last_attested_witness :
    sendAttestation []
        { baseBlockHash := "h", baseBlockNumber := 4, expiry := 9,
          registrant := "a", tokenExpiry := 9 }
        { status := 1, blockNumber := 5,
          events := [{ name := "Attested", tcbId := "t1" },
                     { name := "Other", tcbId := "zz" },
                     { name := "Attested", tcbId := "t2" }] } [6]
      = some (Except.ok "t2", Effect.attestTx :: [Effect.headRead 6]) :=
  sendAttestation_last_attested [] _ _ [6] [Effect.headRead 6]
    { name := "Attested", tcbId := "t2" } rfl (by decide) (by decide) rfl

/-! ### Claim C2: receipt-status failure handling -/
/-- Claim C2 as stated is false for the create-key half: `getOrCreateKey`
never inspects the createKey receipt's status.  With an absent key and a
createKey receipt of status 0 (failure), it still completes and returns a
key instead of aborting with an error. -/
theorem getOrCreateKey_status_cex :
    getOrCreateKey { keys := fun _ => none, derive := fun _ _ => "0x2a" } [1]
        { status := 0, blockNumber := 10, events := [] } [11] "tcb"
      = some ([42],
          LockboxState.createKey { keys := fun _ => none, derive := fun _ _ => "0x2a" }
            "tcb" [1],
          [Effect.getKeyCall "tcb", Effect.createKeyTx "tcb", Effect.headRead 11,
           Effect.getKeyCall "tcb"]) := by
  rfl

/-- Claim C2 (amended): `sendAttestation` aborts with an error whenever the
attest receipt status is not 1; `getOrCreateKey`, by contrast, performs no
status check on the createKey receipt — its outcome is identical for every
status value, so a failed create-key transaction aborts the derivation only
if the external transaction-wait layer itself throws. -/
theorem receipt_status_handling :
    (∀ (q : List Nat) (reg : Registration) (r : TxReceipt) (heads : List Nat),
        r.status ≠ 1 →
        sendAttestation q reg r heads
          = some (Except.error "attestation tx failed", [Effect.attestTx])) ∧
    (∀ (st : LockboxState) (rnd : List Nat) (bn : Nat) (evs : List EventLog)
        (s1 s2 : Nat) (heads : List Nat) (tcb : String),
        getOrCreateKey st rnd { status := s1, blockNumber := bn, events := evs } heads tcb
          = getOrCreateKey st rnd { status := s2, blockNumber := bn, events := evs }
              heads tcb) := by
  constructor
  · intro q reg r heads hst
    unfold sendAttestation
    rw [if_pos hst]
  · intro st rnd bn evs s1 s2 heads tcb
    rfl

theorem receipt_status_handling_witness :
    sendAttestation []
        { baseBlockHash := "h", baseBlockNumber := 4, expiry := 9,
          registrant := "a", tokenExpiry := 9 }
        { status := 0, blockNumber := 5, events := [] } []
      = some (Except.error "attestation tx failed", [Effect.attestTx]) ∧
    getOrCreateKey { keys := fun _ => none, derive := fun _ _ => "0x2a" } [1]
        { status := 0, blockNumber := 10, events := [] } [11] "t"
      = getOrCreateKey { keys := fun _ => none, derive := fun _ _ => "0x2a" } [1]
          { status := 1, blockNumber := 10, events := [] } [11] "t" :=
  ⟨receipt_status_handling.1 [] _ _ [] (by decide),
   receipt_status_handling.2 { keys := fun _ => none, derive := fun _ _ => "0x2a" }
     [1] 10 [] 0 1 [11] "t"⟩

/-! ### Claim C6: idempotent key creation -/
/-- Claim C6: with the key absent, the first `getOrCreateKey` call reads
the zero sentinel, submits a create-key transaction, waits for
confirmation, re-reads and returns the now-populated key; a second call
for the same TcbId returns the very same key bytes with a single read and
no create-key transaction. -/
theorem getOrCreateKey_idempotent (st : LockboxState) (tcb : String)
    (rnd rnd2 : List Nat) (r1 r2 : TxReceipt) (h1 h2 : List Nat)
    (ctr : List Effect)
    (habsent : st.keys tcb = none)
    (hnz : isZeroKeyHex (st.derive tcb rnd) = false)
    (hconf : waitForConfirmation r1.blockNumber h1 = some ctr) :
    getOrCreateKey st rnd r1 h1 tcb
      = some (arrayify (st.derive tcb rnd), st.createKey tcb rnd,
          [Effect.getKeyCall tcb, Effect.createKeyTx tcb] ++ ctr
            ++ [Effect.getKeyCall tcb]) ∧
    getOrCreateKey (st.createKey tcb rnd) rnd2 r2 h2 tcb
      = some (arrayify (st.derive tcb rnd), st.createKey tcb rnd,
          [Effect.getKeyCall tcb]) := by
  have hget : st.getKey tcb = zeroWord := by
    simp [LockboxState.getKey, habsent]
  have hcreate : (st.createKey tcb rnd).getKey tcb = st.derive tcb rnd := by
    simp [LockboxState.createKey, habsent, LockboxState.getKey]
  constructor
  · unfold getOrCreateKey
    simp [hget, isZeroKeyHex_zeroWord, hconf, hcreate]
  · unfold getOrCreateKey
    simp [hcreate, hnz]

theorem getOrCreateKey_idempotent_witness :
    getOrCreateKey { keys := fun _ => none, derive := fun _ _ => "0x2b" } [1]
        { status := 1, blockNumber := 10, events := [] } [11] "t"
      = some (arrayify "0x2b",
          LockboxState.createKey { keys := fun _ => none, derive := fun _ _ => "0x2b" }
            "t" [1],
          [Effect.getKeyCall "t", Effect.createKeyTx "t"] ++ [Effect.headRead 11]
            ++ [Effect.getKeyCall "t"]) ∧
    getOrCreateKey
        (LockboxState.createKey { keys := fun _ => none, derive := fun _ _ => "0x2b" }
          "t" [1]) [2] { status := 1, blockNumber := 20, events := [] } [] "t"
      = some (arrayify "0x2b",
          LockboxState.createKey { keys := fun _ => none, derive := fun _ _ => "0x2b" }
            "t" [1],
          [Effect.getKeyCall "t"]) :=
  getOrCreateKey_idempotent { keys := fun _ => none, derive := fun _ _ => "0x2b" }
    "t" [1] [2] { status := 1, blockNumber := 10, events := [] }
    { status := 1, blockNumber := 20, events := [] } [11] [] [Effect.headRead 11]
    rfl (by decide) rfl

/-! ### Claim C8: Registration invariants -/
/-- Claim C8: every Registration the key-derivation flow constructs has
`expiry = tokenExpiry = now + 3600`; its base block is the block
immediately preceding the chain head (head number minus 1, never the head
itself); and the registrant is the local wallet's address. -/
theorem mkRegistration_invariants (now : Nat) (chain : ChainEnv) (addr : String)
    (hwf : (chain.blockAt (chain.latest.number - 1)).number
      = chain.latest.number - 1)
    (hpos : 0 < chain.latest.number) :
    (mkRegistration now chain addr).expiry = now + 3600 ∧
    (mkRegistration now chain addr).tokenExpiry = now + 3600 ∧
    (mkRegistration now chain addr).expiry = (mkRegistration now chain addr).tokenExpiry ∧
    (mkRegistration now chain addr).baseBlockNumber = chain.latest.number - 1 ∧
    (mkRegistration now chain addr).baseBlockNumber < chain.latest.number ∧
    (mkRegistration now chain addr).baseBlockHash
      = (chain.blockAt (chain.latest.number - 1)).hash ∧
    (mkRegistration now chain addr).registrant = addr := by
  refine ⟨rfl, rfl, rfl, hwf, ?_, rfl, rfl⟩
  rw [show (mkRegistration now chain addr).baseBlockNumber
    = (chain.blockAt (chain.latest.number - 1)).number from rfl, hwf]
  omega

theorem mkRegistration_invariants_witness :
    (mkRegistration 100 chainW "addr").expiry = 100 + 3600 ∧
    (mkRegistration 100 chainW "addr").tokenExpiry = 100 + 3600 ∧
    (mkRegistration 100 chainW "addr").expiry
      = (mkRegistration 100 chainW "addr").tokenExpiry ∧
    (mkRegistration 100 chainW "addr").baseBlockNumber = chainW.latest.number - 1 ∧
    (mkRegistration 100 chainW "addr").baseBlockNumber < chainW.latest.number ∧
    (mkRegistration 100 chainW "addr").baseBlockHash
      = (chainW.blockAt (chainW.latest.number - 1)).hash ∧
    (mkRegistration 100 chainW "addr").registrant = "addr" :=
  mkRegistration_invariants 100 chainW "addr" rfl (by decide)

theorem cacheOK_empty : CacheOK emptyCache := by
  constructor
  · intro r h
    simp [emptyCache] at h
  · intro k _ _ r h
    simp [emptyCache] at h

/-- Claim C7: decrypting a Box whose key id is neither 0 nor 1 fails with
the "unknown key" error, and the run performs no external effect at all
(no attestation, lockbox or chain-reader interaction). -/
theorem decrypt_unknown_key (c : Cache) (env : Env) (box : Box)
    (h0 : box.keyId ≠ 0) (h1 : box.keyId ≠ 1) (hc : CacheOK c) :
    Option.map (fun p => p.1) (decrypt c env box)
      = some (Except.error ("unknown key: " ++ toString box.keyId)) ∧
    Option.map (fun p => p.2.2) (decrypt c env box) = some [] := by
  unfold decrypt getCipherMemo
  cases hck : c box.keyId with
  | some r =>
    have hr := hc.2 box.keyId h0 h1 r hck
    subst hr
    simp
  | none =>
    have hraw : getCipherRaw env box.keyId
        = some (Except.error ("unknown key: " ++ toString box.keyId), []) := by
      unfold getCipherRaw
      rw [if_neg h0, if_neg h1]
    rw [hraw]
    simp

theorem decrypt_unknown_key_witness :
    Option.map (fun p => p.1)
        (decrypt emptyCache envTriv { keyId := 2, nonce := "", data := "" })
      = some (Except.error ("unknown key: "
          ++ toString ({ keyId := 2, nonce := "", data := "" } : Box).keyId)) ∧
    Option.map (fun p => p.2.2)
        (decrypt emptyCache envTriv { keyId := 2, nonce := "", data := "" })
      = some [] :=
  decrypt_unknown_key emptyCache envTriv { keyId := 2, nonce := "", data := "" }
    (by decide) (by decide) cacheOK_empty

/-- Claim C9: any cipher resolution for key id 0 yields the fixed all-42
test key, sized to the AEAD key length, with no external effect; hence a
decrypt of a key-id-0 Box performs no network call and its outcome is AEAD
decryption under that test key. -/
theorem keyId0_test_key (c : Cache) (env : Env) (box : Box)
    (hid : box.keyId = 0) (hc : CacheOK c) :
    testKey = List.replicate KeySize 42 ∧
    Option.map (fun p => p.1) (getCipherMemo c env 0)
      = some (Except.ok { key := testKey }) ∧
    Option.map (fun p => p.2.2.1) (getCipherMemo c env 0) = some [] ∧
    Option.map (fun p => p.1) (decrypt c env box)
      = some (decryptWithKey testKey box) ∧
    Option.map (fun p => p.2.2) (decrypt c env box) = some [] := by
  have hmemo : ∀ c', CacheOK c' →
      Option.map (fun p => p.1) (getCipherMemo c' env 0)
          = some (Except.ok { key := testKey }) ∧
      Option.map (fun p => p.2.2.1) (getCipherMemo c' env 0) = some [] := by
    intro c' hc'
    unfold getCipherMemo
    cases hck : c' 0 with
    | some r =>
      have hr := hc'.1 r hck
      subst hr
      simp
    | none =>
      have hraw : getCipherRaw env 0 = some (Except.ok { key := testKey }, []) := rfl
      rw [hraw]
      simp
  refine ⟨rfl, (hmemo c hc).1, (hmemo c hc).2, ?_⟩
  unfold decrypt
  rw [hid]
  unfold getCipherMemo
  cases hck : c 0 with
  | some r =>
    have hr := hc.1 r hck
    subst hr
    simp
  | none =>
    have hraw : getCipherRaw env 0 = some (Except.ok { key := testKey }, []) := rfl
    rw [hraw]
    simp

theorem keyId0_test_key_witness :
    testKey = List.replicate KeySize 42 ∧
    Option.map (fun p => p.1) (getCipherMemo emptyCache envTriv 0)
      = some (Except.ok { key := testKey }) ∧
    Option.map (fun p => p.2.2.1) (getCipherMemo emptyCache envTriv 0) = some [] ∧
    Option.map (fun p => p.1)
        (decrypt emptyCache envTriv { keyId := 0, nonce := "", data := "" })
      = some (decryptWithKey testKey { keyId := 0, nonce := "", data := "" }) ∧
    Option.map (fun p => p.2.2)
        (decrypt emptyCache envTriv { keyId := 0, nonce := "", data := "" })
      = some [] :=
  keyId0_test_key emptyCache envTriv { keyId := 0, nonce := "", data := "" }
    rfl cacheOK_empty

/-! ### Claim C5: memoization of the key derivation -/
theorem preTrace_count_attest (env : Env) :
    (preTrace env).count Effect.attestTx = 0 := by
  simp [preTrace, List.count_cons]

/-- A successful `fetchKeySapphire` run contains exactly one attest
transaction in its trace: the single underlying derivation. -/
theorem fetchKeySapphire_count_attest (env : Env) (k : List Nat) (tr : List Effect)
    (h : fetchKeySapphire env = some (Except.ok k, tr)) :
    tr.count Effect.attestTx = 1 := by
  unfold fetchKeySapphire at h
  cases hs : sendAttestation
      (mockQuote (mkRegistration env.now env.chain env.localWalletAddr))
      (mkRegistration env.now env.chain env.localWalletAddr)
      env.attestReceipt env.attestHeads with
  | none => rw [hs] at h; simp at h
  | some p =>
    obtain ⟨r, tr1⟩ := p
    cases r with
    | error e => rw [hs] at h; simp at h
    | ok tcb =>
      rw [hs] at h
      dsimp only at h
      cases hg : getOrCreateKey env.lockbox env.createRnd env.createReceipt
          env.createHeads tcb with
      | none => rw [hg] at h; simp at h
      | some q =>
        obtain ⟨k2, st, tr2⟩ := q
        rw [hg] at h
        simp only [Option.some.injEq, Prod.mk.injEq, Except.ok.injEq] at h
        obtain ⟨ctr, hc, htr1⟩ :=
          sendAttestation_ok_shape _ _ _ _ _ _ hs
        rw [← h.2, htr1]
        simp only [List.count_append, List.count_cons, List.count_nil]
        have h1 := preTrace_count_attest env
        have h2 := waitForConfirmation_count_attest env.attestReceipt.blockNumber
          env.attestHeads ctr hc
        have h3 := getOrCreateKey_count_attest env.lockbox env.createRnd
          env.createReceipt env.createHeads tcb k2 st tr2 hg
        simp [h1, h2, h3]

/-- Once the cache holds an entry, every further call returns it with no
external effect. -/
theorem runGetCipherN_cached (env : Env) (k : Nat) (c : Cache)
    (r : Except String AEADCipher) (hck : c k = some r) :
    ∀ n, runGetCipherN env k c n = some (List.replicate n r, c, []) := by
  intro n
  have hm : getCipherMemo c env k = some (r, c, [], false) := by
    unfold getCipherMemo
    rw [hck]
  induction n with
  | zero => rfl
  | succ m ih =>
    unfold runGetCipherN
    rw [hm]
    dsimp only
    rw [ih]
    simp [List.replicate_succ]

/-- The cache a memoized call hands back maps the requested key id to the
returned result. -/
theorem getCipherMemo_cache_after (c : Cache) (env : Env) (k : Nat)
    (r : Except String AEADCipher) (c' : Cache) (tr : List Effect) (b : Bool)
    (h : getCipherMemo c env k = some (r, c', tr, b)) : c' k = some r := by
  unfold getCipherMemo at h
  cases hck : c k with
  | some r0 =>
    rw [hck] at h
    simp only [Option.some.injEq, Prod.mk.injEq] at h
    rw [← h.2.1, hck, h.1]
  | none =>
    rw [hck] at h
    cases hraw : getCipherRaw env k with
    | none => rw [hraw] at h; simp at h
    | some p =>
      rw [hraw] at h
      obtain ⟨r0, tr0⟩ := p
      simp only [Option.map_some', Option.some.injEq, Prod.mk.injEq] at h
      rw [← h.2.1]
      simp [updateCache, h.1]

/-- Claim C5: with no cached entry for key id 1 and a derivation that
succeeds with cipher `ciph` and trace `tr0`, a run of `n ≥ 1` calls to the
memoized `getCipher` produces the very same cipher for every call, its
total trace is exactly the single derivation's trace — which contains
exactly one attest transaction — and after completion a further call
returns the cached cipher with no effect and without re-invoking the
derivation. -/
theorem getCipher_memoized (c : Cache) (env : Env) (ciph : AEADCipher)
    (tr0 : List Effect) (hmiss : c 1 = none)
    (hraw : getCipherRaw env 1 = some (Except.ok ciph, tr0))
    (n : Nat) (hn : 1 ≤ n) :
    runGetCipherN env 1 c n
      = some (List.replicate n (Except.ok ciph),
          updateCache c 1 (Except.ok ciph), tr0) ∧
    tr0.count Effect.attestTx = 1 ∧
    getCipherMemo (updateCache c 1 (Except.ok ciph)) env 1
      = some (Except.ok ciph, updateCache c 1 (Except.ok ciph), [], false) := by
  have hupd : (updateCache c 1 (Except.ok ciph)) 1 = some (Except.ok ciph) := by
    simp [updateCache]
  have hm : getCipherMemo c env 1
      = some (Except.ok ciph, updateCache c 1 (Except.ok ciph), tr0, true) := by
    unfold getCipherMemo
    rw [hmiss, hraw]
    rfl
  have hcount : tr0.count Effect.attestTx = 1 := by
    unfold getCipherRaw at hraw
    rw [if_neg (by omega), if_pos rfl] at hraw
    cases hf : fetchKeySapphire env with
    | none => rw [hf] at hraw; simp at hraw
    | some p =>
      rw [hf] at hraw
      obtain ⟨r0, trf⟩ := p
      cases r0 with
      | error e => simp [Except.map] at hraw
      | ok kb =>
        have htr : trf = tr0 := by
          simp only [Option.map_some', Option.some.injEq, Prod.mk.injEq,
            Except.map] at hraw
          exact hraw.2
        subst htr
        exact fetchKeySapphire_count_attest env kb trf hf
  refine ⟨?_, hcount, ?_⟩
  · obtain ⟨m, rfl⟩ : ∃ m, n = m + 1 := ⟨n - 1, by omega⟩
    unfold runGetCipherN
    rw [hm]
    dsimp only
    rw [runGetCipherN_cached env 1 _ _ hupd m]
    simp [List.replicate_succ]
  · unfold getCipherMemo
    rw [hupd]

theorem getCipher_memoized_witness :
    runGetCipherN envC5 1 emptyCache 2
      = some (List.replicate 2 (Except.ok { key := [42] }),
          updateCache emptyCache 1 (Except.ok { key := [42] }),
          [Effect.headRead 5, Effect.blockRead 4, Effect.attestTx, Effect.headRead 8,
           Effect.getKeyCall "t1"]) ∧
    ([Effect.headRead 5, Effect.blockRead 4, Effect.attestTx, Effect.headRead 8,
      Effect.getKeyCall "t1"] : List Effect).count Effect.attestTx = 1 ∧
    getCipherMemo (updateCache emptyCache 1 (Except.ok { key := [42] })) envC5 1
      = some (Except.ok { key := [42] },
          updateCache emptyCache 1 (Except.ok { key := [42] }), [], false) :=
  getCipher_memoized emptyCache envC5 { key := [42] }
    [Effect.headRead 5, Effect.blockRead 4, Effect.attestTx, Effect.headRead 8,
     Effect.getKeyCall "t1"] rfl rfl 2 (by decide)

/-! ### Claim C1: encrypt/decrypt round trip -/
/-- Claim C1: for every byte string `p`, decrypting the Box produced by a
successful `encrypt p` within the same process — against the cache state
that `encrypt` handed back, holding the same resolved key — returns
exactly `p`, with no further external effect. -/
theorem encrypt_decrypt_roundtrip (c : Cache) (env : Env) (p nonce : List Nat)
    (hp : ∀ b ∈ p, b < 256) (hn : ∀ b ∈ nonce, b < 256)
    (box : Box) (c' : Cache) (tr : List Effect)
    (henc : encrypt c env nonce p = some (Except.ok box, c', tr)) :
    decrypt c' env box = some (Except.ok p, c', []) := by
  unfold encrypt at henc
  cases hm : getCipherMemo c env LATEST_KEY_ID with
  | none => rw [hm] at henc; simp at henc
  | some q =>
    obtain ⟨r, c1, tr1, b⟩ := q
    cases r with
    | error e => rw [hm] at henc; simp at henc
    | ok cipher =>
      rw [hm] at henc
      dsimp only at henc
      simp only [Option.some.injEq, Prod.mk.injEq, Except.ok.injEq] at henc
      obtain ⟨hbox, hcc, htr⟩ := henc
      subst hbox
      subst hcc
      have hc1 : c1 LATEST_KEY_ID = some (Except.ok cipher) :=
        getCipherMemo_cache_after c env LATEST_KEY_ID _ c1 tr1 b hm
      have hmemo2 : getCipherMemo c1 env LATEST_KEY_ID
          = some (Except.ok cipher, c1, [], false) := by
        unfold getCipherMemo
        rw [hc1]
      have hdec : decryptWithKey cipher.key
          { keyId := LATEST_KEY_ID, nonce := encode nonce,
            data := encode (aeadEncrypt cipher.key nonce p) } = Except.ok p := by
        unfold decryptWithKey
        dsimp only
        rw [decode_encode nonce hn,
          decode_encode _ (aeadEncrypt_bytes_lt cipher.key nonce p hp),
          aeadDecrypt_aeadEncrypt]
      unfold decrypt
      dsimp only
      rw [hmemo2]
      dsimp only
      rw [hdec]

theorem encrypt_decrypt_roundtrip_witness :
    decrypt cacheC1 envTriv
        { keyId := LATEST_KEY_ID, nonce := encode [9],
          data := encode (aeadEncrypt [7] [9] [1, 2, 3]) }
      = some (Except.ok [1, 2, 3], cacheC1, []) :=
  encrypt_decrypt_roundtrip cacheC1 envTriv [1, 2, 3] [9] (by decide) (by decide)
    _ _ _ rfl

end Esm

